import Mathlib

/-!
Verification of the per-row download-resolution pipeline in
`downloader_funcs.py` / `main.py` (SPAC-week5).

The Python code is shallowly embedded:
* the network is a pure oracle `net : String → Nat → FetchResult`
  (`rq.get url TIMEOUT` either raises a transport-level exception or
  returns a completed `Response`);
* the filesystem is an association list from path strings to file
  contents; `os.path.isfile`, `open(..,"w"/"wb").write` and
  `os.replace` become pure operations on it;
* Python exceptions that escape a function are modelled with `Except`:
  the only in-scope uncaught exception is the `KeyError` raised by the
  unguarded `response.headers["content-type"]` lookup;
* the thread pool of `main` is modelled as a sequential fold over the
  rows (one linearization of the concurrent appends; the properties
  proved below — entry counts, final sorting, per-row effects — are
  interleaving-independent).
-/

/-- One spreadsheet cell as seen by `_unpack_input`: either a string value or
a pandas NaN (whose `str()` is the literal text "nan"). -/
inductive Cell where
  | str (s : String)
  | nanVal
  deriving DecidableEq, Repr

/-- The `str(x)` coercion used by `_unpack_input` to test cells against "nan". -/
def cellToStr : Cell → String
  | .str s => s
  | .nanVal => "nan"

/-- An HTTP response as consumed by the code: status code, headers
(association list, keys already normalized to lower case as the `requests`
library does), body bytes (`content`), decoded body (`text`), declared
`encoding`, and the final resolved `url`. -/
structure Response where
  statusCode : Nat
  headers : List (String × String)
  content : List Nat
  text : String
  encoding : String
  url : String
  deriving DecidableEq, Repr

/-- Outcome of one `rq.get` call: a transport-level exception (timeout, DNS,
connection refusal, malformed response — carrying its message) or a completed
response. -/
inductive FetchResult where
  | transportError (msg : String)
  | completed (r : Response)
  deriving DecidableEq, Repr

/-- The Python exceptions that can escape the embedded functions. -/
inductive PyError where
  | keyError (key : String)
  deriving DecidableEq, Repr

deriving instance DecidableEq for Except

/-- The settings installed by `init`: the fields of the settings dict that the
per-row job reads (folders, filetype token, binary flag, the
`do_download_all` flag and the connection timeout). -/
structure Config where
  dlFolder : String
  tempFolder : String
  filetype : String
  isBin : Bool
  downloadAll : Bool
  timeout : Nat
  deriving DecidableEq, Repr

/-- One row of the report list built by `_add_to_report`: the fields of the
`pd.Series` it appends. -/
structure ReportEntry where
  name : String
  success : Bool
  fromUrl : String
  exceptionsEncountered : String
  deriving DecidableEq, Repr

/-- Contents of a file on the embedded filesystem: raw bytes (binary mode) or
text together with the encoding it was written with. -/
inductive FileContent where
  | bin (bytes : List Nat)
  | txt (s : String) (enc : String)
  deriving DecidableEq, Repr

/-- The filesystem: a finite map from path strings to file contents,
represented as an association list. -/
abbrev FS := List (String × FileContent)

/-- Look a path up on the filesystem. -/
def fsGet (fs : FS) (p : String) : Option FileContent :=
  (fs.find? (fun e => e.1 == p)).map (fun e => e.2)

/-- Remove a path from the filesystem (no-op when absent). -/
def fsRemove (fs : FS) (p : String) : FS :=
  fs.filter (fun e => !(e.1 == p))

/-- Create or fully overwrite the file at a path. -/
def fsSet (fs : FS) (p : String) (c : FileContent) : FS :=
  (p, c) :: fsRemove fs p

/-- Check that `needle` is an initial segment of `hay` (character lists). -/
def hasLead : List Char → List Char → Bool
  | _, [] => true
  | [], _ :: _ => false
  | a :: xs, b :: ys => a == b && hasLead xs ys

/-- Substring containment, the semantics of the Python operator
`needle in hay` on strings. -/
def hasSub (needle : List Char) : List Char → Bool
  | [] => hasLead [] needle
  | c :: rest => hasLead (c :: rest) needle || hasSub needle rest

/-- String-level wrapper for `hasSub`: Python `needle in hay`. -/
def strContains (needle hay : String) : Bool :=
  hasSub needle.toList hay.toList

/-- Header lookup `response.headers[key]` — `none` models the `KeyError` case
of a missing header. -/
def headerLookup (r : Response) (key : String) : Option String :=
  (r.headers.find? (fun e => e.1 == key)).map (fun e => e.2)

/-- Embedding of `_is_correct_filetype` (downloader_funcs.py:175-183): tests
whether `FILETYPE in response.headers["content-type"]`. The subscript lookup
is unguarded, so a response without a content-type header raises `KeyError`
(the `.error` case). -/
def isCorrectFiletype (cfg : Config) (r : Response) : Except PyError Bool :=
  match headerLookup r "content-type" with
  | none => .error (.keyError "content-type")
  | some ct => .ok (strContains cfg.filetype ct)

/-- Loop body of `_try_links` (downloader_funcs.py:153-172) with the running
accumulators made explicit: `res` is the current winner, `excs` the exception
list built up so far. A transport error is appended to `excs` and iteration
continues; a completed response with `status_code == 200` that passes
`_is_correct_filetype` overwrites `res`; the `KeyError` out of
`_is_correct_filetype` escapes the loop (it is raised outside the
`try`/`except` that guards only `rq.get`). -/
def tryLinksAux (cfg : Config) (net : String → Nat → FetchResult) :
    List String → Option Response → List String →
    Except PyError (Option Response × List String)
  | [], res, excs => .ok (res, excs)
  | url :: rest, res, excs =>
    match net url cfg.timeout with
    | .transportError e => tryLinksAux cfg net rest res (excs ++ [e])
    | .completed r =>
      if r.statusCode == 200 then
        match isCorrectFiletype cfg r with
        | .error e => .error e
        | .ok true => tryLinksAux cfg net rest (some r) excs
        | .ok false => tryLinksAux cfg net rest res excs
      else
        tryLinksAux cfg net rest res excs

/-- Embedding of `_try_links` (downloader_funcs.py:153-172): starts with
`res = None` and the caller-supplied (initially empty) exception list, and
returns the final winner together with the accumulated exception messages. -/
def tryLinks (cfg : Config) (net : String → Nat → FetchResult)
    (links : List String) : Except PyError (Option Response × List String) :=
  tryLinksAux cfg net links none []

/-- Embedding of `_file_exists` (downloader_funcs.py:144-150):
`os.path.isfile(DL_FOLDER + name + "." + FILETYPE)`. -/
def fileExists (cfg : Config) (fs : FS) (name : String) : Bool :=
  (fsGet fs (cfg.dlFolder ++ name ++ "." ++ cfg.filetype)).isSome

/-- The existence-gate condition of `thread_job` (downloader_funcs.py:109):
`DOWNLOAD_ALL == False and _file_exists(name)`. -/
def shouldSkip (cfg : Config) (fs : FS) (name : String) : Bool :=
  (cfg.downloadAll == false) && fileExists cfg fs name

/-- Embedding of `_unpack_input` (downloader_funcs.py:128-141): the cell at
`name_col_i` is the name, all other cells are candidate links, and cells whose
`str()` is "nan" are dropped (order preserved). -/
def unpackInput (input : List Cell) (name_col_i : Nat) : Cell × List String :=
  (input.getD name_col_i .nanVal,
   ((input.take name_col_i ++ input.drop (name_col_i + 1)).filter
      (fun x => cellToStr x != "nan")).map cellToStr)

/-- Staging path `TEMP_DL_FOLDER + name + "." + FILETYPE`. -/
def tempPath (cfg : Config) (name : String) : String :=
  cfg.tempFolder ++ name ++ "." ++ cfg.filetype

/-- Final path `DL_FOLDER + name + "." + FILETYPE`. -/
def finalPath (cfg : Config) (name : String) : String :=
  cfg.dlFolder ++ name ++ "." ++ cfg.filetype

/-- The payload `_save_file` writes: `response.content` as raw bytes when
`IS_BIN`, else `response.text` decoded text written with
`encoding=response.encoding`. -/
def payloadOf (cfg : Config) (r : Response) : FileContent :=
  if cfg.isBin then .bin r.content else .txt r.text r.encoding

/-- One filesystem operation performed by `_save_file`: a full overwrite-write
of one path, or `os.replace` of one path onto another. -/
inductive FSOp where
  | write (path : String) (c : FileContent)
  | replace (src dst : String)
  deriving DecidableEq, Repr

/-- Apply one `FSOp`. `os.replace src dst` atomically moves `src` over `dst`
(overwriting `dst`); inside `_save_file` the source was just written, so the
missing-source branch is unreachable there. -/
def applyOp (fs : FS) : FSOp → FS
  | .write p c => fsSet fs p c
  | .replace src dst =>
    match fsGet fs src with
    | some c => if src = dst then fs else fsSet (fsRemove fs src) dst c
    | none => fs

/-- The exact operation sequence of `_save_file` (downloader_funcs.py:186-205):
one overwriting write of the payload to the staging path, then one
`os.replace` from the staging path to the final path. -/
def saveFileOps (cfg : Config) (r : Response) (name : String) : List FSOp :=
  [.write (tempPath cfg name) (payloadOf cfg r),
   .replace (tempPath cfg name) (finalPath cfg name)]

/-- Embedding of `_save_file` (downloader_funcs.py:186-205): run its two
filesystem operations in order. -/
def saveFile (cfg : Config) (fs : FS) (r : Response) (name : String) : FS :=
  (saveFileOps cfg r name).foldl applyOp fs

/-- Embedding of `_add_to_report` (downloader_funcs.py:208-234): build the
report `Series` — url empty unless a response is given, exceptions joined with
" ; AND ; " unless the list is empty — and append it to the shared list. -/
def addToReport (reports : List ReportEntry) (name : String) (success : Bool)
    (response : Option Response) (exceptions : List String) :
    List ReportEntry :=
  let fromUrl := match response with
    | some r => r.url
    | none => ""
  let exc := if exceptions.isEmpty then ""
    else String.intercalate " ; AND ; " exceptions
  reports ++ [{ name := name, success := success, fromUrl := fromUrl,
                exceptionsEncountered := exc }]

/-- The post-gate body of `thread_job` (downloader_funcs.py:112-122): run
`_try_links`, on a winner run `_save_file` and report success, otherwise
report failure; the `KeyError` out of `_try_links` propagates. -/
def resolveAndReport (cfg : Config) (net : String → Nat → FetchResult)
    (fs : FS) (name : String) (links : List String)
    (reports : List ReportEntry) : Except PyError (FS × List ReportEntry) :=
  match tryLinks cfg net links with
  | .error e => .error e
  | .ok (some r, exceptions) =>
    .ok (saveFile cfg fs r name, addToReport reports name true (some r) exceptions)
  | .ok (none, exceptions) =>
    .ok (fs, addToReport reports name false none exceptions)

/-- Embedding of `thread_job` (downloader_funcs.py:97-123): unpack the row,
return early (reporting nothing) when the existence gate fires, otherwise
resolve the links and report. -/
def thread_job (cfg : Config) (net : String → Nat → FetchResult) (fs : FS)
    (input_row : List Cell) (reports : List ReportEntry) :
    Except PyError (FS × List ReportEntry) :=
  let nl := unpackInput input_row 0
  let name := cellToStr nl.1
  if shouldSkip cfg fs name then
    .ok (fs, reports)
  else
    resolveAndReport cfg net fs name nl.2 reports

/-- Ordering of report entries used by `write_report`: ascending by the
`name` field (`df.sort_values(by=["name"])`). -/
def nameLe (a b : ReportEntry) : Prop := a.name ≤ b.name

instance : DecidableRel nameLe := fun a b =>
  inferInstanceAs (Decidable (a.name ≤ b.name))

instance : IsTotal ReportEntry nameLe := ⟨fun a b => le_total a.name b.name⟩

instance : IsTrans ReportEntry nameLe := ⟨fun _ _ _ h1 h2 => le_trans h1 h2⟩

/-- Sort a report list ascending by name, the embedding of
`df.sort_values(by=["name"])`. -/
def sortByName (l : List ReportEntry) : List ReportEntry :=
  l.insertionSort nameLe

/-- Embedding of `write_report` (downloader_funcs.py:80-94): the report rows
are concatenated one by one into the dataframe, which is re-sorted by name
after each concatenation (the sort sits inside the loop in the source); the
value is the table finally written to the report file. -/
def write_report (reports : List ReportEntry) : List ReportEntry :=
  reports.foldl (fun df item => sortByName (df ++ [item])) []

/-- One task of the pool in `main` (main.py:106-112): run `thread_job` on a
row; an exception escaping the job is captured by its `Future` and the shared
state is left untouched (the job mutates nothing before its only raise
point). -/
def runRow (cfg : Config) (net : String → Nat → FetchResult)
    (st : FS × List ReportEntry) (row : List Cell) : FS × List ReportEntry :=
  match thread_job cfg net st.1 row st.2 with
  | .ok st2 => st2
  | .error _ => st

/-- Embedding of `main` (main.py:94-117), with the thread pool linearized:
fold `thread_job` over the rows starting from an empty report list, then after
all tasks are done pass the gathered reports to `write_report`. Returns the
final filesystem, the gathered report list, and the written report table. -/
def mainRun (cfg : Config) (net : String → Nat → FetchResult) (fs0 : FS)
    (rows : List (List Cell)) : FS × List ReportEntry × List ReportEntry :=
  let st := rows.foldl (runRow cfg net) (fs0, [])
  (st.1, st.2, write_report st.2)

/-! Specification-side vocabulary used to state the claims. -/

/-- Project the response out of a fetch outcome. -/
def respOf : FetchResult → Option Response
  | .completed r => some r
  | .transportError _ => none

/-- Acceptance check of the resolver, as a predicate on a candidate URL: the
fetch completes, the status code is 200 and the content-type check passes. -/
def acceptable (cfg : Config) (net : String → Nat → FetchResult)
    (url : String) : Bool :=
  match net url cfg.timeout with
  | .completed r =>
    r.statusCode == 200 &&
      (match isCorrectFiletype cfg r with
       | .ok b => b
       | .error _ => false)
  | .transportError _ => false

/-- Option fallback: the first argument when present, otherwise the second. -/
def optOr (a b : Option Response) : Option Response :=
  match a with
  | some x => some x
  | none => b

/-- The winner the resolver should return per the tie-break policy: the
response of the last acceptable candidate in iteration order, if any. -/
def winner (cfg : Config) (net : String → Nat → FetchResult)
    (links : List String) : Option Response :=
  ((links.filter (acceptable cfg net)).getLast?).bind
    (fun url => respOf (net url cfg.timeout))

/-- The transport-failure messages of a candidate list, in iteration order:
one per candidate whose fetch raises. -/
def transportFailures (net : String → Nat → FetchResult) (timeout : Nat)
    (links : List String) : List String :=
  links.filterMap (fun url =>
    match net url timeout with
    | .transportError e => some e
    | .completed _ => none)

/-- Name of a row as `thread_job` computes it. -/
def rowName (row : List Cell) : String := cellToStr (unpackInput row 0).1

/-- Candidate links of a row as `thread_job` computes them. -/
def rowLinks (row : List Cell) : List String := (unpackInput row 0).2

/-- Number of report entries one row contributes (0 when skipped or when the
job dies with an uncaught exception, 1 otherwise). -/
def rowDelta (cfg : Config) (net : String → Nat → FetchResult) (fs : FS)
    (row : List Cell) : Nat :=
  match thread_job cfg net fs row [] with
  | .ok st => st.2.length
  | .error _ => 0

/-- Filesystem after one row is processed (report-list independent). -/
def rowFS (cfg : Config) (net : String → Nat → FetchResult) (fs : FS)
    (row : List Cell) : FS :=
  (runRow cfg net (fs, []) row).1

/-- Total number of report entries a run contributes, row by row along the
evolving filesystem. -/
def countContrib (cfg : Config) (net : String → Nat → FetchResult) :
    FS → List (List Cell) → Nat
  | _, [] => 0
  | fs, row :: rest =>
    rowDelta cfg net fs row + countContrib cfg net (rowFS cfg net fs row) rest

/-! Concrete fixtures used to instantiate the claims. -/

/-- A settings profile with `do_download_all = False` (pdf, binary). -/
def cfgT : Config :=
  { dlFolder := "dl/", tempFolder := "tmp/", filetype := "pdf", isBin := true,
    downloadAll := false, timeout := 10 }

/-- The same profile with `do_download_all = True`. -/
def cfgA : Config :=
  { dlFolder := "dl/", tempFolder := "tmp/", filetype := "pdf", isBin := true,
    downloadAll := true, timeout := 10 }

/-- An acceptable pdf response (candidate A). -/
def respA : Response :=
  { statusCode := 200, headers := [("content-type", "application/pdf")],
    content := [1, 2], text := "aa", encoding := "utf-8",
    url := "http://a/doc.pdf" }

/-- An acceptable pdf response (candidate C). -/
def respC : Response :=
  { statusCode := 200, headers := [("content-type", "application/pdf")],
    content := [3, 4], text := "cc", encoding := "utf-8",
    url := "http://c/doc.pdf" }

/-- A completed response with the wrong content-type. -/
def respHtml : Response :=
  { statusCode := 200, headers := [("content-type", "text/html")],
    content := [5], text := "pp", encoding := "utf-8",
    url := "http://w/page.html" }

/-- A completed 404 response that still advertises a pdf content-type. -/
def resp404 : Response :=
  { statusCode := 404, headers := [("content-type", "application/pdf")],
    content := [6], text := "no", encoding := "utf-8",
    url := "http://m/missing.pdf" }

/-- A completed 200 response with no content-type header at all. -/
def respNoCT : Response :=
  { statusCode := 200, headers := [], content := [7], text := "x",
    encoding := "utf-8", url := "http://n/raw" }

/-- Network oracle for the claims: A and C are acceptable, B times out, D has
the wrong filetype, E is a 404, F lacks a content-type header, everything else
is unreachable. -/
def netABC : String → Nat → FetchResult := fun url _ =>
  if url = "A" then .completed respA
  else if url = "B" then .transportError "timeout B"
  else if url = "C" then .completed respC
  else if url = "D" then .completed respHtml
  else if url = "E" then .completed resp404
  else if url = "F" then .completed respNoCT
  else .transportError ("unreachable: " ++ url)

/-- A filesystem on which `r1.pdf` has already been downloaded. -/
def fsC1 : FS := [("dl/r1.pdf", FileContent.bin [9])]

/-- An input row named `r1` with one candidate link B. -/
def rowC1 : List Cell := [Cell.str "r1", Cell.str "B"]

/-- An input row named `r1` whose link cells are all NaN. -/
def rowNan : List Cell := [Cell.str "r1", Cell.nanVal, Cell.nanVal]

/-- An input row named `n` whose only candidate is A. -/
def rowA : List Cell := [Cell.str "n", Cell.str "A"]

/-- An input row named `n` whose only candidate is F (no content-type). -/
def rowF : List Cell := [Cell.str "n", Cell.str "F"]

/-- The report entry produced for `rowC1` when its only candidate B fails
transport. -/
def entryC1 : ReportEntry :=
  { name := "r1", success := false, fromUrl := "",
    exceptionsEncountered := "timeout B" }

/-- A filesystem on which a final file `n.pdf` already exists. -/
def fsW : FS := [("dl/n.pdf", FileContent.bin [9])]

/-! Helper lemmas about the embedded filesystem. -/

theorem fsGet_cons (e : String × FileContent) (rest : FS) (q : String) :
    fsGet (e :: rest) q = if e.1 == q then some e.2 else fsGet rest q := by
  rw [fsGet, List.find?_cons]
  cases hb : e.1 == q
  · simp [fsGet]
  · simp

theorem fsRemove_cons (e : String × FileContent) (rest : FS) (p : String) :
    fsRemove (e :: rest) p =
      if e.1 == p then fsRemove rest p else e :: fsRemove rest p := by
  rw [fsRemove, List.filter_cons]
  cases hb : e.1 == p <;> simp [fsRemove, hb]

theorem fsGet_fsRemove_same (fs : FS) (p : String) :
    fsGet (fsRemove fs p) p = none := by
  induction fs with
  | nil => rfl
  | cons e rest ih =>
    rw [fsRemove_cons]
    by_cases he : e.1 = p
    · rw [if_pos (by simp [he])]
      exact ih
    · rw [if_neg (by simp [he]), fsGet_cons, if_neg (by simp [he])]
      exact ih

theorem fsGet_fsRemove_other (fs : FS) (p q : String) (h : q ≠ p) :
    fsGet (fsRemove fs p) q = fsGet fs q := by
  induction fs with
  | nil => rfl
  | cons e rest ih =>
    rw [fsRemove_cons]
    by_cases he : e.1 = p
    · have h2 : (e.1 == q) = false := by
        rw [he]
        exact beq_false_of_ne (Ne.symm h)
      rw [if_pos (by simp [he]), ih, fsGet_cons, h2, if_neg (by simp)]
    · rw [if_neg (by simp [he]), fsGet_cons, fsGet_cons, ih]

theorem fsGet_fsSet_same (fs : FS) (p : String) (c : FileContent) :
    fsGet (fsSet fs p c) p = some c := by
  rw [fsSet, fsGet_cons]
  simp

theorem fsGet_fsSet_other (fs : FS) (p q : String) (c : FileContent)
    (h : q ≠ p) : fsGet (fsSet fs p c) q = fsGet fs q := by
  rw [fsSet, fsGet_cons, if_neg]
  · exact fsGet_fsRemove_other fs p q h
  · simp
    exact fun hpq => h hpq.symm

/-! Equation lemmas for one step of the resolver loop. -/

theorem tryLinksAux_cons_transport (cfg : Config)
    (net : String → Nat → FetchResult) (url e : String) (rest : List String)
    (res : Option Response) (excs : List String)
    (hn : net url cfg.timeout = .transportError e) :
    tryLinksAux cfg net (url :: rest) res excs =
      tryLinksAux cfg net rest res (excs ++ [e]) := by
  simp [tryLinksAux, hn]

theorem tryLinksAux_cons_badStatus (cfg : Config)
    (net : String → Nat → FetchResult) (url : String) (r : Response)
    (rest : List String) (res : Option Response) (excs : List String)
    (hn : net url cfg.timeout = .completed r)
    (hs : (r.statusCode == 200) = false) :
    tryLinksAux cfg net (url :: rest) res excs =
      tryLinksAux cfg net rest res excs := by
  simp [tryLinksAux, hn, hs]

theorem tryLinksAux_cons_keyError (cfg : Config)
    (net : String → Nat → FetchResult) (url : String) (r : Response)
    (rest : List String) (res : Option Response) (excs : List String)
    (e : PyError) (hn : net url cfg.timeout = .completed r)
    (hs : (r.statusCode == 200) = true)
    (hc : isCorrectFiletype cfg r = .error e) :
    tryLinksAux cfg net (url :: rest) res excs = .error e := by
  simp [tryLinksAux, hn, hs, hc]

theorem tryLinksAux_cons_accept (cfg : Config)
    (net : String → Nat → FetchResult) (url : String) (r : Response)
    (rest : List String) (res : Option Response) (excs : List String)
    (hn : net url cfg.timeout = .completed r)
    (hs : (r.statusCode == 200) = true)
    (hc : isCorrectFiletype cfg r = .ok true) :
    tryLinksAux cfg net (url :: rest) res excs =
      tryLinksAux cfg net rest (some r) excs := by
  simp [tryLinksAux, hn, hs, hc]

theorem tryLinksAux_cons_reject (cfg : Config)
    (net : String → Nat → FetchResult) (url : String) (r : Response)
    (rest : List String) (res : Option Response) (excs : List String)
    (hn : net url cfg.timeout = .completed r)
    (hs : (r.statusCode == 200) = true)
    (hc : isCorrectFiletype cfg r = .ok false) :
    tryLinksAux cfg net (url :: rest) res excs =
      tryLinksAux cfg net rest res excs := by
  simp [tryLinksAux, hn, hs, hc]

theorem transportFailures_cons_transport (net : String → Nat → FetchResult)
    (t : Nat) (url e : String) (rest : List String)
    (hn : net url t = .transportError e) :
    transportFailures net t (url :: rest) =
      e :: transportFailures net t rest := by
  simp [transportFailures, hn]

theorem transportFailures_cons_completed (net : String → Nat → FetchResult)
    (t : Nat) (url : String) (r : Response) (rest : List String)
    (hn : net url t = .completed r) :
    transportFailures net t (url :: rest) = transportFailures net t rest := by
  simp [transportFailures, hn]

/-! The fold semantics of the resolver. -/

theorem optOr_none_right (a : Option Response) : optOr a none = a := by
  cases a <;> rfl

theorem optOr_some_absorb (a : Option Response) (x : Response)
    (b : Option Response) : optOr (optOr a (some x)) b = optOr a (some x) := by
  cases a <;> rfl

theorem winner_nil (cfg : Config) (net : String → Nat → FetchResult) :
    winner cfg net [] = none := rfl

theorem winner_cons (cfg : Config) (net : String → Nat → FetchResult)
    (url : String) (rest : List String) :
    winner cfg net (url :: rest) =
      optOr (winner cfg net rest)
        (if acceptable cfg net url then respOf (net url cfg.timeout)
         else none) := by
  cases hfr : rest.filter (acceptable cfg net) with
  | nil =>
    have hwr : winner cfg net rest = none := by simp [winner, hfr]
    by_cases h : acceptable cfg net url
    · simp [winner, List.filter_cons, h, hfr, hwr, optOr]
    · simp [winner, List.filter_cons, h, hfr, hwr, optOr]
  | cons b t =>
    have hne : b :: t ≠ ([] : List String) := List.cons_ne_nil b t
    have hl : (b :: t).getLast? = some ((b :: t).getLast hne) :=
      List.getLast?_eq_getLast_of_ne_nil hne
    have hmem : (b :: t).getLast hne ∈ rest.filter (acceptable cfg net) := by
      rw [hfr]
      exact List.getLast_mem hne
    have hacc : acceptable cfg net ((b :: t).getLast hne) = true :=
      (List.mem_filter.mp hmem).2
    obtain ⟨r, hr⟩ : ∃ r,
        respOf (net ((b :: t).getLast hne) cfg.timeout) = some r := by
      cases hn : net ((b :: t).getLast hne) cfg.timeout with
      | completed r2 => exact ⟨r2, rfl⟩
      | transportError e => simp [acceptable, hn] at hacc
    have hwr : winner cfg net rest = some r := by
      simp [winner, hfr, hl, hr]
    by_cases h : acceptable cfg net url
    · simp [winner, List.filter_cons, h, hfr, List.getLast?_cons_cons, hl,
        hr, hwr, optOr]
    · simp [winner, List.filter_cons, h, hfr, hl, hr, hwr, optOr]

theorem tryLinksAux_ok_spec (cfg : Config) (net : String → Nat → FetchResult) :
    ∀ (links : List String) (res : Option Response) (excs : List String) p,
      tryLinksAux cfg net links res excs = .ok p →
      p.1 = optOr (winner cfg net links) res ∧
      p.2 = excs ++ transportFailures net cfg.timeout links := by
  intro links
  induction links with
  | nil =>
    intro res excs p h
    simp only [tryLinksAux] at h
    cases h
    simp [winner_nil, optOr, transportFailures]
  | cons url rest ih =>
    intro res excs p h
    rw [winner_cons]
    cases hn : net url cfg.timeout with
    | transportError e =>
      rw [tryLinksAux_cons_transport cfg net url e rest res excs hn] at h
      obtain ⟨h1, h2⟩ := ih res (excs ++ [e]) p h
      have hacc : acceptable cfg net url = false := by simp [acceptable, hn]
      constructor
      · rw [h1, hacc, if_neg Bool.false_ne_true, optOr_none_right]
      · rw [h2, transportFailures_cons_transport net cfg.timeout url e rest hn,
          List.append_assoc, List.singleton_append]
    | completed r =>
      have htf := transportFailures_cons_completed net cfg.timeout url r rest hn
      cases hs : r.statusCode == 200 with
      | false =>
        rw [tryLinksAux_cons_badStatus cfg net url r rest res excs hn hs] at h
        obtain ⟨h1, h2⟩ := ih res excs p h
        have hacc : acceptable cfg net url = false := by
          simp [acceptable, hn, hs]
        exact ⟨by rw [h1, hacc, if_neg Bool.false_ne_true, optOr_none_right],
          by rw [h2, htf]⟩
      | true =>
        cases hc : isCorrectFiletype cfg r with
        | error e =>
          rw [tryLinksAux_cons_keyError cfg net url r rest res excs e hn hs hc]
            at h
          cases h
        | ok b =>
          cases b with
          | true =>
            rw [tryLinksAux_cons_accept cfg net url r rest res excs hn hs hc]
              at h
            obtain ⟨h1, h2⟩ := ih (some r) excs p h
            have hacc : acceptable cfg net url = true := by
              simp [acceptable, hn, hs, hc]
            refine ⟨?_, by rw [h2, htf]⟩
            simp [h1, hacc, hn, respOf, optOr_some_absorb]
          | false =>
            rw [tryLinksAux_cons_reject cfg net url r rest res excs hn hs hc]
              at h
            obtain ⟨h1, h2⟩ := ih res excs p h
            have hacc : acceptable cfg net url = false := by
              simp [acceptable, hn, hc]
            exact ⟨by rw [h1, hacc, if_neg Bool.false_ne_true, optOr_none_right],
              by rw [h2, htf]⟩

theorem tryLinks_ok_spec (cfg : Config) (net : String → Nat → FetchResult)
    (links : List String) (p : Option Response × List String)
    (h : tryLinks cfg net links = .ok p) :
    p.1 = winner cfg net links ∧
    p.2 = transportFailures net cfg.timeout links := by
  obtain ⟨h1, h2⟩ := tryLinksAux_ok_spec cfg net links none [] p h
  exact ⟨by rw [h1, optOr_none_right], by rw [h2, List.nil_append]⟩

theorem winner_spec (cfg : Config) (net : String → Nat → FetchResult) :
    ∀ (links : List String) (r : Response), winner cfg net links = some r →
      r.statusCode = 200 ∧ isCorrectFiletype cfg r = .ok true := by
  intro links
  induction links with
  | nil =>
    intro r h
    simp [winner] at h
  | cons url rest ih =>
    intro r h
    rw [winner_cons] at h
    cases hw : winner cfg net rest with
    | some r2 =>
      rw [hw] at h
      simp only [optOr, Option.some.injEq] at h
      subst h
      exact ih _ hw
    | none =>
      rw [hw] at h
      simp only [optOr] at h
      by_cases ha : acceptable cfg net url
      · rw [if_pos ha] at h
        cases hn : net url cfg.timeout with
        | transportError e =>
          rw [hn] at h
          simp [respOf] at h
        | completed r2 =>
          rw [hn] at h
          simp only [respOf, Option.some.injEq] at h
          subst h
          simp only [acceptable, hn, Bool.and_eq_true, beq_iff_eq] at ha
          obtain ⟨hs, hm⟩ := ha
          refine ⟨hs, ?_⟩
          cases hc : isCorrectFiletype cfg r2 with
          | error e =>
            rw [hc] at hm
            simp at hm
          | ok b =>
            rw [hc] at hm
            cases b with
            | false => simp at hm
            | true => rfl
      · rw [if_neg ha] at h
        simp at h

/-! Helper lemmas about the per-row job and the report list. -/

theorem thread_job_skip (cfg : Config) (net : String → Nat → FetchResult)
    (fs : FS) (row : List Cell) (reports : List ReportEntry)
    (h : shouldSkip cfg fs (rowName row) = true) :
    thread_job cfg net fs row reports = .ok (fs, reports) := by
  simp only [rowName] at h
  simp [thread_job, h]

theorem thread_job_noSkip (cfg : Config) (net : String → Nat → FetchResult)
    (fs : FS) (row : List Cell) (reports : List ReportEntry)
    (h : shouldSkip cfg fs (rowName row) = false) :
    thread_job cfg net fs row reports =
      resolveAndReport cfg net fs (rowName row) (rowLinks row) reports := by
  simp only [rowName] at h
  simp [thread_job, h, rowName, rowLinks]

theorem thread_job_reports (cfg : Config) (net : String → Nat → FetchResult)
    (fs : FS) (row : List Cell) (reports : List ReportEntry) :
    thread_job cfg net fs row reports =
      Except.map (fun st => (st.1, reports ++ st.2))
        (thread_job cfg net fs row []) := by
  cases h : shouldSkip cfg fs (rowName row) with
  | true =>
    rw [thread_job_skip cfg net fs row reports h,
      thread_job_skip cfg net fs row [] h]
    simp [Except.map]
  | false =>
    rw [thread_job_noSkip cfg net fs row reports h,
      thread_job_noSkip cfg net fs row [] h]
    cases ht : tryLinks cfg net (rowLinks row) with
    | error e => simp [resolveAndReport, ht, Except.map]
    | ok pr =>
      obtain ⟨resp, exceptions⟩ := pr
      cases resp with
      | some r => simp [resolveAndReport, ht, Except.map, addToReport]
      | none => simp [resolveAndReport, ht, Except.map, addToReport]

theorem runRow_eq (cfg : Config) (net : String → Nat → FetchResult) (fs : FS)
    (reports : List ReportEntry) (row : List Cell) :
    runRow cfg net (fs, reports) row =
      match thread_job cfg net fs row [] with
      | .ok st => (st.1, reports ++ st.2)
      | .error _ => (fs, reports) := by
  simp only [runRow]
  rw [thread_job_reports]
  cases thread_job cfg net fs row [] with
  | ok st => simp [Except.map]
  | error e => simp [Except.map]

theorem runRow_fst (cfg : Config) (net : String → Nat → FetchResult) (fs : FS)
    (reports : List ReportEntry) (row : List Cell) :
    (runRow cfg net (fs, reports) row).1 = rowFS cfg net fs row := by
  simp only [rowFS]
  rw [runRow_eq, runRow_eq]
  cases thread_job cfg net fs row [] <;> simp

theorem runRow_len (cfg : Config) (net : String → Nat → FetchResult) (fs : FS)
    (reports : List ReportEntry) (row : List Cell) :
    (runRow cfg net (fs, reports) row).2.length =
      reports.length + rowDelta cfg net fs row := by
  rw [runRow_eq]
  cases h : thread_job cfg net fs row [] with
  | ok st => simp [rowDelta, h]
  | error e => simp [rowDelta, h]

theorem foldl_runRow_len (cfg : Config) (net : String → Nat → FetchResult) :
    ∀ (rows : List (List Cell)) (fs : FS) (reports : List ReportEntry),
      ((rows.foldl (runRow cfg net) (fs, reports)).2).length =
        reports.length + countContrib cfg net fs rows := by
  intro rows
  induction rows with
  | nil =>
    intro fs reports
    simp [countContrib]
  | cons row rest ih =>
    intro fs reports
    rw [List.foldl_cons]
    have h1 := runRow_fst cfg net fs reports row
    have h2 := runRow_len cfg net fs reports row
    rcases hrr : runRow cfg net (fs, reports) row with ⟨fs1, reports1⟩
    have hf : fs1 = rowFS cfg net fs row := by rw [← h1, hrr]
    have hl2 : reports1.length = reports.length + rowDelta cfg net fs row := by
      rw [← h2, hrr]
    rw [hf, ih (rowFS cfg net fs row) reports1, hl2]
    simp only [countContrib]
    omega

/-! Helper lemmas about report sorting. -/

theorem sortByName_sorted (l : List ReportEntry) :
    List.Sorted nameLe (sortByName l) :=
  List.sorted_insertionSort nameLe l

theorem sortByName_perm (l : List ReportEntry) :
    List.Perm (sortByName l) l :=
  List.perm_insertionSort nameLe l

theorem write_report_go_perm :
    ∀ (l df : List ReportEntry),
      List.Perm (l.foldl (fun df item => sortByName (df ++ [item])) df)
        (df ++ l) := by
  intro l
  induction l with
  | nil =>
    intro df
    simp
  | cons x xs ih =>
    intro df
    rw [List.foldl_cons]
    refine (ih (sortByName (df ++ [x]))).trans ?_
    have h1 : List.Perm (sortByName (df ++ [x]) ++ xs) ((df ++ [x]) ++ xs) :=
      List.Perm.append_right xs (sortByName_perm (df ++ [x]))
    have h2 : (df ++ [x]) ++ xs = df ++ x :: xs := by simp
    rw [h2] at h1
    exact h1

theorem write_report_go_sorted :
    ∀ (l df : List ReportEntry), List.Sorted nameLe df →
      List.Sorted nameLe
        (l.foldl (fun df item => sortByName (df ++ [item])) df) := by
  intro l
  induction l with
  | nil =>
    intro df h
    exact h
  | cons x xs ih =>
    intro df _
    rw [List.foldl_cons]
    exact ih (sortByName (df ++ [x])) (sortByName_sorted _)

theorem write_report_perm (reports : List ReportEntry) :
    List.Perm (write_report reports) reports := by
  simpa [write_report] using write_report_go_perm reports []

theorem write_report_sorted (reports : List ReportEntry) :
    List.Sorted nameLe (write_report reports) :=
  write_report_go_sorted reports [] List.sorted_nil

theorem tryLinksAux_all_transport (cfg : Config)
    (net : String → Nat → FetchResult) :
    ∀ (links : List String) (res : Option Response) (excs : List String),
      (∀ url ∈ links, respOf (net url cfg.timeout) = none) →
      tryLinksAux cfg net links res excs =
        .ok (res, excs ++ transportFailures net cfg.timeout links) := by
  intro links
  induction links with
  | nil =>
    intro res excs _
    simp [tryLinksAux, transportFailures]
  | cons url rest ih =>
    intro res excs h
    have hu := h url (List.mem_cons_self url rest)
    cases hn : net url cfg.timeout with
    | completed r =>
      rw [hn] at hu
      simp [respOf] at hu
    | transportError e =>
      rw [tryLinksAux_cons_transport cfg net url e rest res excs hn,
        ih res (excs ++ [e]) (fun u hm => h u (List.mem_cons_of_mem url hm)),
        transportFailures_cons_transport net cfg.timeout url e rest hn]
      simp

theorem saveFile_eq (cfg : Config) (fs : FS) (r : Response) (name : String) :
    saveFile cfg fs r name =
      if tempPath cfg name = finalPath cfg name then
        fsSet fs (tempPath cfg name) (payloadOf cfg r)
      else
        fsSet (fsRemove (fsSet fs (tempPath cfg name) (payloadOf cfg r))
          (tempPath cfg name)) (finalPath cfg name) (payloadOf cfg r) := by
  simp only [saveFile, saveFileOps, List.foldl_cons, List.foldl_nil, applyOp,
    fsGet_fsSet_same]

/-! The claims. -/

/-- Claim C1, counterexample: on a one-row input whose row the existence gate
skips (`do_download_all = False` and `dl/r1.pdf` already present), the run
produces zero report entries, not one per row. -/
theorem C1_counterexample :
    ¬ ((mainRun cfgT netABC fsC1 [rowC1]).2.1).length = [rowC1].length := by
  decide

/-- Claim C1 (amended): one run produces exactly one `ReportEntry` per row
that is not skipped by the existence gate and whose job completes without an
uncaught exception; a row skipped by the existence gate contributes no
`ReportEntry` (its job returns with the shared state untouched). -/
theorem C1_one_report_per_processed_row (cfg : Config)
    (net : String → Nat → FetchResult) (fs0 : FS) (rows : List (List Cell)) :
    ((mainRun cfg net fs0 rows).2.1).length = countContrib cfg net fs0 rows ∧
    (∀ (fs : FS) (reports : List ReportEntry) (row : List Cell),
       shouldSkip cfg fs (rowName row) = true →
       thread_job cfg net fs row reports = .ok (fs, reports)) ∧
    (∀ (fs : FS) (reports : List ReportEntry) (row : List Cell)
       (st : FS × List ReportEntry),
       shouldSkip cfg fs (rowName row) = false →
       thread_job cfg net fs row reports = .ok st →
       st.2.length = reports.length + 1) := by
  refine ⟨?_, ?_, ?_⟩
  · show ((rows.foldl (runRow cfg net) (fs0, [])).2).length =
      countContrib cfg net fs0 rows
    simpa using foldl_runRow_len cfg net rows fs0 []
  · intro fs reports row h
    exact thread_job_skip cfg net fs row reports h
  · intro fs reports row st h hj
    rw [thread_job_noSkip cfg net fs row reports h] at hj
    cases ht : tryLinks cfg net (rowLinks row) with
    | error e =>
      simp only [resolveAndReport, ht] at hj
      exact Except.noConfusion hj
    | ok pr =>
      obtain ⟨resp, excs⟩ := pr
      cases resp with
      | some r =>
        simp only [resolveAndReport, ht, Except.ok.injEq] at hj
        rw [← hj]
        simp [addToReport]
      | none =>
        simp only [resolveAndReport, ht, Except.ok.injEq] at hj
        rw [← hj]
        simp [addToReport]

/-- Claim C1, witness: the skipped row `rowC1` contributes nothing on `fsC1`;
on the empty filesystem it is not skipped and contributes exactly one entry. -/
theorem C1_witness :
    (shouldSkip cfgT fsC1 (rowName rowC1) = true ∧
     thread_job cfgT netABC fsC1 rowC1 [] = .ok (fsC1, [])) ∧
    (shouldSkip cfgT ([] : FS) (rowName rowC1) = false ∧
     ((([] : FS), [entryC1]) : FS × List ReportEntry).2.length =
       ([] : List ReportEntry).length + 1) :=
  ⟨⟨by decide,
    (C1_one_report_per_processed_row cfgT netABC fsC1 []).2.1 fsC1 [] rowC1
      (by decide)⟩,
   ⟨by decide,
    (C1_one_report_per_processed_row cfgT netABC fsC1 []).2.2 [] [] rowC1
      (([] : FS), [entryC1]) (by decide) (by decide)⟩⟩

/-- Claim C2: the resolver scans every candidate and the last acceptable one
in iteration order wins, with one recorded failure per transport-failing
candidate; in particular on `[A, B, C]` with A and C acceptable and B failing
transport, it returns C and records exactly B's failure. -/
theorem C2_last_acceptable_wins :
    (∀ (cfg : Config) (net : String → Nat → FetchResult) (links : List String)
       (p : Option Response × List String),
       tryLinks cfg net links = .ok p →
       p.1 = winner cfg net links ∧
       p.2 = transportFailures net cfg.timeout links) ∧
    (tryLinks cfgT netABC ["A", "B", "C"] = .ok (some respC, ["timeout B"]) ∧
     acceptable cfgT netABC "A" = true ∧
     netABC "B" cfgT.timeout = .transportError "timeout B" ∧
     acceptable cfgT netABC "C" = true) := by
  refine ⟨fun cfg net links p h => tryLinks_ok_spec cfg net links p h,
    by decide, by decide, by decide, by decide⟩

/-- Claim C2, witness: the general statement applied to the concrete
`[A, B, C]` run. -/
theorem C2_witness :
    some respC = winner cfgT netABC ["A", "B", "C"] ∧
    ["timeout B"] = transportFailures netABC cfgT.timeout ["A", "B", "C"] :=
  C2_last_acceptable_wins.1 cfgT netABC ["A", "B", "C"]
    (some respC, ["timeout B"]) (by decide)

/-- Claim C3: the fetch for a row is skipped (job returns with state
untouched, independently of the network) exactly when the re-download-all
flag is false and `{name}.{filetype}` exists in the final download folder;
otherwise the job runs the resolver on the row's links. -/
theorem C3_existence_gate (cfg : Config) (net : String → Nat → FetchResult)
    (fs : FS) (row : List Cell) (reports : List ReportEntry) :
    (shouldSkip cfg fs (rowName row) = true ↔
      cfg.downloadAll = false ∧ fileExists cfg fs (rowName row) = true) ∧
    (cfg.downloadAll = false ∧ fileExists cfg fs (rowName row) = true →
      thread_job cfg net fs row reports = .ok (fs, reports)) ∧
    (¬(cfg.downloadAll = false ∧ fileExists cfg fs (rowName row) = true) →
      thread_job cfg net fs row reports =
        resolveAndReport cfg net fs (rowName row) (rowLinks row) reports) := by
  have hiff : shouldSkip cfg fs (rowName row) = true ↔
      cfg.downloadAll = false ∧ fileExists cfg fs (rowName row) = true := by
    simp [shouldSkip, Bool.and_eq_true, beq_iff_eq]
  refine ⟨hiff, ?_, ?_⟩
  · intro h
    exact thread_job_skip cfg net fs row reports (hiff.mpr h)
  · intro h
    have hf : shouldSkip cfg fs (rowName row) = false := by
      cases hsk : shouldSkip cfg fs (rowName row)
      · rfl
      · exact absurd (hiff.mp hsk) h
    exact thread_job_noSkip cfg net fs row reports hf

/-- Claim C3, witness: the gate fires for `rowC1` on `fsC1` under
`do_download_all = False`, and does not fire under `do_download_all = True`. -/
theorem C3_witness :
    (cfgT.downloadAll = false ∧ fileExists cfgT fsC1 (rowName rowC1) = true ∧
     thread_job cfgT netABC fsC1 rowC1 [] = .ok (fsC1, [])) ∧
    (¬(cfgA.downloadAll = false ∧ fileExists cfgA fsC1 (rowName rowC1) = true) ∧
     thread_job cfgA netABC fsC1 rowC1 [] =
       resolveAndReport cfgA netABC fsC1 (rowName rowC1) (rowLinks rowC1) []) :=
  ⟨⟨by decide, by decide,
    (C3_existence_gate cfgT netABC fsC1 rowC1 []).2.1 ⟨by decide, by decide⟩⟩,
   ⟨by decide,
    (C3_existence_gate cfgA netABC fsC1 rowC1 []).2.2 (by decide)⟩⟩

/-- Claim C4: `_save_file` performs exactly one overwriting payload write to
the staging path (bytes in binary mode, decoded text with the declared
encoding otherwise) followed by one atomic rename onto the final path,
overwriting any pre-existing staged or final file and touching nothing else;
consequently a run with `do_download_all = True` whose resolver accepts a
response persists and reports it with no error even when the final file
already exists. -/
theorem C4_atomic_persist (cfg : Config) (fs : FS) (r : Response)
    (name : String) :
    saveFileOps cfg r name =
      [FSOp.write (tempPath cfg name) (payloadOf cfg r),
       FSOp.replace (tempPath cfg name) (finalPath cfg name)] ∧
    payloadOf cfg r = (if cfg.isBin then FileContent.bin r.content
      else FileContent.txt r.text r.encoding) ∧
    fsGet (applyOp fs (FSOp.write (tempPath cfg name) (payloadOf cfg r)))
      (tempPath cfg name) = some (payloadOf cfg r) ∧
    fsGet (saveFile cfg fs r name) (finalPath cfg name) =
      some (payloadOf cfg r) ∧
    (tempPath cfg name ≠ finalPath cfg name →
      fsGet (saveFile cfg fs r name) (tempPath cfg name) = none) ∧
    (∀ p, p ≠ tempPath cfg name → p ≠ finalPath cfg name →
      fsGet (saveFile cfg fs r name) p = fsGet fs p) ∧
    (∀ (net : String → Nat → FetchResult) (reports : List ReportEntry)
       (row : List Cell) (r2 : Response) (excs : List String),
       cfg.downloadAll = true →
       tryLinks cfg net (rowLinks row) = .ok (some r2, excs) →
       thread_job cfg net fs row reports =
         .ok (saveFile cfg fs r2 (rowName row),
              addToReport reports (rowName row) true (some r2) excs)) := by
  refine ⟨rfl, rfl, fsGet_fsSet_same fs (tempPath cfg name) (payloadOf cfg r),
    ?_, ?_, ?_, ?_⟩
  · rw [saveFile_eq]
    by_cases h : tempPath cfg name = finalPath cfg name
    · rw [if_pos h, ← h, fsGet_fsSet_same]
    · rw [if_neg h, fsGet_fsSet_same]
  · intro h
    rw [saveFile_eq, if_neg h,
      fsGet_fsSet_other _ _ _ _ h, fsGet_fsRemove_same]
  · intro p hp1 hp2
    rw [saveFile_eq]
    by_cases h : tempPath cfg name = finalPath cfg name
    · rw [if_pos h, fsGet_fsSet_other _ _ _ _ hp1]
    · rw [if_neg h, fsGet_fsSet_other _ _ _ _ hp2,
        fsGet_fsRemove_other _ _ _ hp1, fsGet_fsSet_other _ _ _ _ hp1]
  · intro net reports row r2 excs hall ht
    have hsk : shouldSkip cfg fs (rowName row) = false := by
      simp [shouldSkip, hall]
    rw [thread_job_noSkip cfg net fs row reports hsk]
    simp [resolveAndReport, ht]

/-- Claim C4, witness: persisting `respA` as `n` over a filesystem that
already holds a final `dl/n.pdf` leaves the payload at the final path, clears
the staging path, keeps unrelated paths, and the force-true job succeeds. -/
theorem C4_witness :
    (tempPath cfgA "n" ≠ finalPath cfgA "n" ∧
     fsGet (saveFile cfgA fsW respA "n") (tempPath cfgA "n") = none) ∧
    ("z" ≠ tempPath cfgA "n" ∧ "z" ≠ finalPath cfgA "n" ∧
     fsGet (saveFile cfgA fsW respA "n") "z" = fsGet fsW "z") ∧
    (cfgA.downloadAll = true ∧
     tryLinks cfgA netABC (rowLinks rowA) = .ok (some respA, []) ∧
     thread_job cfgA netABC fsW rowA [] =
       .ok (saveFile cfgA fsW respA (rowName rowA),
            addToReport [] (rowName rowA) true (some respA) [])) :=
  ⟨⟨by decide, (C4_atomic_persist cfgA fsW respA "n").2.2.2.2.1 (by decide)⟩,
   ⟨by decide, by decide,
    (C4_atomic_persist cfgA fsW respA "n").2.2.2.2.2.1 "z" (by decide)
      (by decide)⟩,
   ⟨by decide, by decide,
    (C4_atomic_persist cfgA fsW respA "n").2.2.2.2.2.2 netABC [] rowA respA []
      (by decide) (by decide)⟩⟩

/-- Claim C5: the report table handed to serialization is produced exactly
once, from the full report list gathered after all rows have been folded, and
it is a permutation of that list sorted ascending by name. -/
theorem C5_report_once_sorted (cfg : Config) (net : String → Nat → FetchResult)
    (fs0 : FS) (rows : List (List Cell)) :
    (mainRun cfg net fs0 rows).2.2 =
      write_report ((mainRun cfg net fs0 rows).2.1) ∧
    List.Sorted nameLe ((mainRun cfg net fs0 rows).2.2) ∧
    List.Perm ((mainRun cfg net fs0 rows).2.2)
      ((mainRun cfg net fs0 rows).2.1) := by
  refine ⟨rfl, ?_, ?_⟩
  · show List.Sorted nameLe
      (write_report ((rows.foldl (runRow cfg net) (fs0, [])).2))
    exact write_report_sorted _
  · show List.Perm
      (write_report ((rows.foldl (runRow cfg net) (fs0, [])).2))
      ((rows.foldl (runRow cfg net) (fs0, [])).2)
    exact write_report_perm _

/-- Claim C6: a transport-level failure on one candidate is recorded as one
failure entry and iteration continues with the remaining candidates; transport
failures never escape the resolver — a list whose fetches all fail transport
still returns normally with every failure recorded in order. -/
theorem C6_transport_failures_recovered :
    (∀ (cfg : Config) (net : String → Nat → FetchResult) (url e : String)
       (rest : List String) (res : Option Response) (excs : List String),
       net url cfg.timeout = .transportError e →
       tryLinksAux cfg net (url :: rest) res excs =
         tryLinksAux cfg net rest res (excs ++ [e])) ∧
    (∀ (cfg : Config) (net : String → Nat → FetchResult) (links : List String),
       (∀ url ∈ links, respOf (net url cfg.timeout) = none) →
       tryLinks cfg net links =
         .ok (none, transportFailures net cfg.timeout links)) := by
  constructor
  · exact fun cfg net url e rest res excs hn =>
      tryLinksAux_cons_transport cfg net url e rest res excs hn
  · intro cfg net links h
    simpa using tryLinksAux_all_transport cfg net links none [] h

/-- Claim C6, witness: B's timeout is recorded and the loop moves on; a run
over the single transport-failing candidate B returns normally. -/
theorem C6_witness :
    tryLinksAux cfgT netABC ["B", "C"] none [] =
      tryLinksAux cfgT netABC ["C"] none ["timeout B"] ∧
    tryLinks cfgT netABC ["B"] =
      .ok (none, transportFailures netABC cfgT.timeout ["B"]) :=
  ⟨C6_transport_failures_recovered.1 cfgT netABC "B" "timeout B" ["C"] none []
     (by decide),
   C6_transport_failures_recovered.2 cfgT netABC ["B"] (by decide)⟩

/-- Claim C7: a candidate whose fetch completes but whose response fails the
content-type acceptance check is skipped silently — no failure entry is
recorded, the current winner is unchanged, and the loop continues as if the
candidate were absent. -/
theorem C7_mismatch_not_recorded (cfg : Config)
    (net : String → Nat → FetchResult) (url : String) (r : Response)
    (rest : List String) (res : Option Response) (excs : List String)
    (hn : net url cfg.timeout = .completed r)
    (hc : isCorrectFiletype cfg r = .ok false) :
    tryLinksAux cfg net (url :: rest) res excs =
      tryLinksAux cfg net rest res excs := by
  cases hs : r.statusCode == 200 with
  | true => exact tryLinksAux_cons_reject cfg net url r rest res excs hn hs hc
  | false => exact tryLinksAux_cons_badStatus cfg net url r rest res excs hn hs

/-- Claim C7, witness: candidate D completes with content-type `text/html`,
fails the pdf check, and is skipped with nothing recorded. -/
theorem C7_witness :
    netABC "D" cfgT.timeout = .completed respHtml ∧
    isCorrectFiletype cfgT respHtml = .ok false ∧
    tryLinksAux cfgT netABC ["D"] none [] =
      tryLinksAux cfgT netABC [] none [] :=
  ⟨by decide, by decide,
   C7_mismatch_not_recorded cfgT netABC "D" respHtml [] none [] (by decide)
     (by decide)⟩

/-- Claim C8: a row whose link cells are all NaN (and which the existence
gate does not skip) yields no candidates, so the resolver attempts nothing
and the job appends one failed report entry with empty source url and empty
failure details, leaving the filesystem untouched. -/
theorem C8_null_row_failed_entry (cfg : Config)
    (net : String → Nat → FetchResult) (fs : FS) (nameCell : Cell)
    (cells : List Cell) (reports : List ReportEntry)
    (hnan : ∀ c ∈ cells, cellToStr c = "nan")
    (hsk : shouldSkip cfg fs (cellToStr nameCell) = false) :
    rowLinks (nameCell :: cells) = [] ∧
    thread_job cfg net fs (nameCell :: cells) reports =
      .ok (fs, reports ++ [ReportEntry.mk (cellToStr nameCell) false "" ""]) := by
  have hlinks : rowLinks (nameCell :: cells) = [] := by
    have hfil : cells.filter (fun x => cellToStr x != "nan") = [] := by
      rw [List.filter_eq_nil_iff]
      intro a ha
      simp [hnan a ha]
    simp [rowLinks, unpackInput, hfil]
  refine ⟨hlinks, ?_⟩
  have hsk2 : shouldSkip cfg fs (rowName (nameCell :: cells)) = false := hsk
  rw [thread_job_noSkip cfg net fs (nameCell :: cells) reports hsk2]
  have hname : rowName (nameCell :: cells) = cellToStr nameCell := rfl
  rw [hname, hlinks]
  simp [resolveAndReport, tryLinks, tryLinksAux, addToReport]

/-- Claim C8, witness: the all-NaN row `rowNan` under the force profile on an
empty filesystem produces one failed entry with empty url and details. -/
theorem C8_witness :
    rowLinks rowNan = [] ∧
    thread_job cfgA netABC ([] : FS) rowNan [] =
      .ok (([] : FS), [ReportEntry.mk "r1" false "" ""]) := by
  have h := C8_null_row_failed_entry cfgA netABC ([] : FS) (Cell.str "r1")
    [Cell.nanVal, Cell.nanVal] [] (by decide) (by decide)
  exact h

/-- Claim C9: a completed response whose status code is not 200 can never
become the winner — the loop skips it outright, and any winner the resolver
returns has status code 200. -/
theorem C9_winner_requires_status_200 :
    (∀ (cfg : Config) (net : String → Nat → FetchResult) (url : String)
       (r : Response) (rest : List String) (res : Option Response)
       (excs : List String),
       net url cfg.timeout = .completed r → (r.statusCode == 200) = false →
       tryLinksAux cfg net (url :: rest) res excs =
         tryLinksAux cfg net rest res excs) ∧
    (∀ (cfg : Config) (net : String → Nat → FetchResult) (links : List String)
       (r : Response) (excs : List String),
       tryLinks cfg net links = .ok (some r, excs) → r.statusCode = 200) := by
  constructor
  · exact fun cfg net url r rest res excs hn hs =>
      tryLinksAux_cons_badStatus cfg net url r rest res excs hn hs
  · intro cfg net links r excs h
    obtain ⟨h1, _⟩ := tryLinks_ok_spec cfg net links (some r, excs) h
    exact (winner_spec cfg net links r h1.symm).1

/-- Claim C9, witness: the 404 candidate E (with a pdf content-type) is
skipped, and the winner of the run over `[A]` has status code 200. -/
theorem C9_witness :
    (netABC "E" cfgT.timeout = .completed resp404 ∧
     (resp404.statusCode == 200) = false ∧
     tryLinksAux cfgT netABC ["E"] none [] =
       tryLinksAux cfgT netABC [] none []) ∧
    (tryLinks cfgT netABC ["A"] = .ok (some respA, []) ∧
     respA.statusCode = 200) :=
  ⟨⟨by decide, by decide,
    C9_winner_requires_status_200.1 cfgT netABC "E" resp404 [] none []
      (by decide) (by decide)⟩,
   ⟨by decide,
    C9_winner_requires_status_200.2 cfgT netABC ["A"] respA [] (by decide)⟩⟩

/-- Claim C10: the content-type lookup is unguarded, so a completed 200
response with no content-type header makes the acceptance check raise a
`KeyError`; the error escapes the resolver loop (whose handler guards only
the fetch) and the whole job, so the row ends with no file persisted and no
report entry appended. -/
theorem C10_missing_header_kills_row :
    (∀ (cfg : Config) (r : Response), headerLookup r "content-type" = none →
       isCorrectFiletype cfg r = .error (.keyError "content-type")) ∧
    (∀ (cfg : Config) (net : String → Nat → FetchResult) (url : String)
       (r : Response) (rest : List String) (res : Option Response)
       (excs : List String),
       net url cfg.timeout = .completed r → (r.statusCode == 200) = true →
       headerLookup r "content-type" = none →
       tryLinksAux cfg net (url :: rest) res excs =
         .error (.keyError "content-type")) ∧
    (∀ (cfg : Config) (net : String → Nat → FetchResult) (fs : FS)
       (row : List Cell) (reports : List ReportEntry) (e : PyError),
       shouldSkip cfg fs (rowName row) = false →
       tryLinks cfg net (rowLinks row) = .error e →
       thread_job cfg net fs row reports = .error e ∧
       runRow cfg net (fs, reports) row = (fs, reports)) := by
  refine ⟨?_, ?_, ?_⟩
  · intro cfg r h
    simp [isCorrectFiletype, h]
  · intro cfg net url r rest res excs hn hs hh
    exact tryLinksAux_cons_keyError cfg net url r rest res excs _ hn hs
      (by simp [isCorrectFiletype, hh])
  · intro cfg net fs row reports e hsk ht
    have hj : thread_job cfg net fs row reports = .error e := by
      rw [thread_job_noSkip cfg net fs row reports hsk]
      simp [resolveAndReport, ht]
    exact ⟨hj, by simp [runRow, hj]⟩

/-- Claim C10, witness: the header-less 200 response F aborts the resolver
and the whole job for `rowF`, leaving filesystem and report list untouched. -/
theorem C10_witness :
    (headerLookup respNoCT "content-type" = none ∧
     isCorrectFiletype cfgT respNoCT = .error (.keyError "content-type")) ∧
    tryLinksAux cfgT netABC ["F"] none [] =
      .error (.keyError "content-type") ∧
    (shouldSkip cfgT ([] : FS) (rowName rowF) = false ∧
     tryLinks cfgT netABC (rowLinks rowF) = .error (.keyError "content-type") ∧
     thread_job cfgT netABC ([] : FS) rowF [] =
       .error (.keyError "content-type") ∧
     runRow cfgT netABC (([] : FS), []) rowF = (([] : FS), [])) :=
  ⟨⟨by decide, C10_missing_header_kills_row.1 cfgT respNoCT (by decide)⟩,
   C10_missing_header_kills_row.2.1 cfgT netABC "F" respNoCT [] none []
     (by decide) (by decide) (by decide),
   by
     have h := C10_missing_header_kills_row.2.2 cfgT netABC ([] : FS) rowF []
       (.keyError "content-type") (by decide) (by decide)
     exact ⟨by decide, by decide, h.1, h.2⟩⟩
